import Mathlib

/-!
# Client.go : token-gated in-memory video service

A shallow embedding of `src/Client.go`.  The two package-level slices
`videos` and `clients` become the fields of `Server`; every HTTP handler is a
function from a request and the server state to a response and the next
server state.  Go strings are Lean strings, `len` is the UTF-8 byte count.
-/

namespace VideoService

/-! ## Data model -/

/-- The `Video` struct. -/
structure Video where
  ID : String
  Title : String
  URL : String
deriving DecidableEq, Repr

/-- The `Client` struct. -/
structure Client where
  ID : String
  Username : String
  Password : String
  Token : String
deriving DecidableEq, Repr

/-- The package-level variables `videos` and `clients`. -/
structure Server where
  videos : List Video
  clients : List Client
deriving DecidableEq, Repr

/-- What a handler reads from `*http.Request`.
* `authorization` is `r.Header.Get("Authorization")` (the empty string when the header is absent);
* `id` is `r.URL.Query().Get("id")`;
* `video` is the outcome of `json.NewDecoder(r.Body).Decode` into a `Video`
  (`none` when decoding fails), `client` the same into a `Client`;
* `rand` is the outcome of the `rand.Read` this request would perform:
  `none` when the read fails, `some f` when it succeeds, byte `i` being `f i % 256`;
* `ctx` is the request context value stored under the key `"client"`. -/
structure Request where
  authorization : String
  id : String
  video : Option Video
  client : Option Client
  rand : Option (Nat → Nat)
  ctx : Option Client

/-- What a handler writes to the `http.ResponseWriter` body. -/
inductive Payload where
  | empty : Payload
  | video : Video → Payload
  | videos : List Video → Payload
  | token : String → Payload
deriving DecidableEq, Repr

/-- The status code and the body of a response; a handler that writes a body
without calling `WriteHeader` answers 200. -/
structure Response where
  status : Nat
  body : Payload
deriving DecidableEq, Repr

/-- An `http.HandlerFunc` acting on the shared state. -/
abbrev Handler := Request → Server → Response × Server

/-! ## Helpers for Go primitives -/

/-- Go `len` of a string: its number of bytes. -/
def len (s : String) : Nat := s.utf8ByteSize

/-- The Go call `fmt.Sprintf(tag + "%d", n)` for a non-negative `n`. -/
def sprintfD (tag : String) (n : Nat) : String := tag ++ toString n

/-- The loop `for i, x := range xs { if p x { ...; return } }`: the index and the
copy of the first element satisfying `p`, counting from `i`. -/
def rangeFind {α : Type} (p : α → Bool) : List α → Nat → Option (Nat × α)
  | [], _ => none
  | x :: xs, i => if p x then some (i, x) else rangeFind p xs (i + 1)

/-- The digit table of `encoding/hex`. -/
def hextable : List Char := "0123456789abcdef".toList

/-- Function `hex.EncodeToString`: two digits per byte, `hextable[v>>4]` then `hextable[v&0x0f]`. -/
def EncodeToString (src : List Nat) : String :=
  String.mk (src.flatMap fun v => [hextable.getD (v / 16) '0', hextable.getD (v % 16) '0'])

/-- Function `GenerateSecureToken`: `length` random bytes, hex encoded; the empty string
when the random source fails. -/
def GenerateSecureToken (length : Nat) (rand : Option (Nat → Nat)) : String :=
  match rand with
  | none => ""
  | some f => EncodeToString ((List.range length).map fun i => f i % 256)

/-! ## Handlers -/

/-- Middleware `authenticate`, placed in front of every video route. -/
def authenticate (next : Handler) : Handler := fun r s =>
  let token := r.authorization
  if token = "" then
    (⟨401, Payload.empty⟩, s)
  else
    match rangeFind (fun c => decide (c.Token = token)) s.clients 0 with
    | none => (⟨401, Payload.empty⟩, s)
    | some (_, c) => next { r with ctx := some c } s

/-- Handler `createVideo`. -/
def createVideo : Handler := fun r s =>
  match r.video with
  | none => (⟨400, Payload.empty⟩, s)
  | some body =>
    let newVideo : Video := { body with ID := sprintfD "video" (s.videos.length + 1) }
    (⟨200, Payload.video newVideo⟩, { s with videos := s.videos ++ [newVideo] })

/-- Handler `getVideos`. -/
def getVideos : Handler := fun _ s =>
  (⟨200, Payload.videos s.videos⟩, s)

/-- Handler `getVideo`. -/
def getVideo : Handler := fun r s =>
  let videoID := r.id
  match rangeFind (fun v => decide (v.ID = videoID)) s.videos 0 with
  | some (_, video) => (⟨200, Payload.video video⟩, s)
  | none => (⟨404, Payload.empty⟩, s)

/-- Handler `updateVideo`: `videos[i] = video` on the first record with the given ID. -/
def updateVideo : Handler := fun r s =>
  let videoID := r.id
  match r.video with
  | none => (⟨400, Payload.empty⟩, s)
  | some updatedVideo =>
    match rangeFind (fun v => decide (v.ID = videoID)) s.videos 0 with
    | some (i, video) =>
      let video : Video := { video with Title := updatedVideo.Title, URL := updatedVideo.URL }
      (⟨200, Payload.video video⟩, { s with videos := s.videos.set i video })
    | none => (⟨404, Payload.empty⟩, s)

/-- Handler `deleteVideo`: `videos = append(videos[:i], videos[i+1:]...)`. -/
def deleteVideo : Handler := fun r s =>
  let videoID := r.id
  match rangeFind (fun v => decide (v.ID = videoID)) s.videos 0 with
  | some (i, _) =>
    (⟨204, Payload.empty⟩, { s with videos := s.videos.take i ++ s.videos.drop (i + 1) })
  | none => (⟨404, Payload.empty⟩, s)

/-- Handler `login`: `clients[i].Token = token` on the first record with both fields equal. -/
def login : Handler := fun r s =>
  match r.client with
  | none => (⟨400, Payload.empty⟩, s)
  | some client =>
    match rangeFind
        (fun c => decide (c.Username = client.Username) && decide (c.Password = client.Password))
        s.clients 0 with
    | some (i, c) =>
      let token := GenerateSecureToken (len c.Username) r.rand
      (⟨200, Payload.token token⟩,
        { s with clients := s.clients.set i { c with Token := token } })
    | none => (⟨401, Payload.empty⟩, s)

/-- Handler `register`. -/
def register : Handler := fun r s =>
  match r.client with
  | none => (⟨400, Payload.empty⟩, s)
  | some client =>
    match rangeFind (fun c => decide (c.Username = client.Username)) s.clients 0 with
    | some _ => (⟨409, Payload.empty⟩, s)
    | none =>
      let client : Client := { client with ID := sprintfD "client" (s.clients.length + 1) }
      (⟨201, Payload.empty⟩, { s with clients := s.clients ++ [client] })

/-! ## Request sequences -/

/-- A request to one of the two routes that bypass `authenticate`. -/
inductive DirReq where
  | register : Request → DirReq
  | login : Request → DirReq

/-- The server state after one directory request. -/
def DirReq.apply : DirReq → Server → Server
  | DirReq.register r, s => (VideoService.register r s).2
  | DirReq.login r, s => (VideoService.login r s).2

/-- The server state after a sequence of directory requests, one after another. -/
def runDir : List DirReq → Server → Server
  | [], s => s
  | q :: qs, s => runDir qs (q.apply s)

/-- A mutating request to the video store. -/
inductive StoreReq where
  | create : Request → StoreReq
  | update : Request → StoreReq
  | delete : Request → StoreReq

/-- The response and the server state after one store request. -/
def StoreReq.handle : StoreReq → Server → Response × Server
  | StoreReq.create r, s => createVideo r s
  | StoreReq.update r, s => updateVideo r s
  | StoreReq.delete r, s => deleteVideo r s

/-- The server state after a sequence of store requests, one after another. -/
def runStore : List StoreReq → Server → Server
  | [], s => s
  | q :: qs, s => runStore qs (q.handle s).2

/-- The responses and the final state of consecutive `createVideo` calls. -/
def runCreates : List Request → Server → List Response × Server
  | [], s => ([], s)
  | r :: rs, s =>
    let out := createVideo r s
    let rest := runCreates rs out.2
    (out.1 :: rest.1, rest.2)

/-- A request with the given Authorization value, `id` parameter, decoded
bodies and random source, and an empty context. -/
def mkRequest (authorization id : String) (video : Option Video) (client : Option Client)
    (rand : Option (Nat → Nat)) : Request :=
  ⟨authorization, id, video, client, rand, none⟩

/-! ## Properties and devices used in the statements -/

/-- The value of a decimal digit string read left to right, starting from `acc`. -/
def digitsValue (acc : Nat) (ds : List Char) : Nat :=
  ds.foldl (fun a c => a * 10 + (c.toNat - 48)) acc

/-- No two records of the directory have the same username. -/
def UniqueUsernames (cs : List Client) : Prop :=
  cs.Pairwise fun a b => a.Username ≠ b.Username

instance (cs : List Client) : Decidable (UniqueUsernames cs) :=
  inferInstanceAs (Decidable (List.Pairwise _ cs))

/-- No two records of the directory hold the same non-empty token. -/
def UniqueTokens (cs : List Client) : Prop :=
  cs.Pairwise fun a b => a.Token ≠ "" → a.Token ≠ b.Token

instance (cs : List Client) : Decidable (UniqueTokens cs) :=
  inferInstanceAs (Decidable (List.Pairwise _ cs))

/-- A register request is fresh when its body carries no token; a login request is fresh when
the token generated for it is empty or is held by no record with another username. -/
def DirReq.fresh : DirReq → Server → Bool
  | DirReq.register r, _ =>
    match r.client with
    | none => true
    | some b => decide (b.Token = "")
  | DirReq.login r, s =>
    match r.client with
    | none => true
    | some b =>
      decide (GenerateSecureToken (len b.Username) r.rand = "") ||
        s.clients.all fun c =>
          decide (c.Username = b.Username) ||
            !decide (c.Token = GenerateSecureToken (len b.Username) r.rand)

/-- Every request of the sequence is fresh in the state it is applied to. -/
def freshRun : List DirReq → Server → Bool
  | [], _ => true
  | q :: qs, s => q.fresh s && freshRun qs (q.apply s)

/-- The records that consecutive creates with bodies `bs` append to a store of `n` records. -/
def numbered : Nat → List Video → List Video
  | _, [] => []
  | n, b :: bs => ⟨sprintfD "video" (n + 1), b.Title, b.URL⟩ :: numbered (n + 1) bs

theorem rangeFind_eq_none {α : Type} (p : α → Bool) (xs : List α) (k : Nat) :
    rangeFind p xs k = none ↔ ∀ x ∈ xs, p x = false := by
  induction xs generalizing k with
  | nil => simp [rangeFind]
  | cons x xs ih =>
    by_cases hx : p x = true
    · simp [rangeFind, hx]
    · simp [rangeFind, hx, ih]

theorem rangeFind_split {α : Type} (p : α → Bool) (l1 : List α) (x : α) (l2 : List α) (k : Nat)
    (hx : p x = true) (h1 : ∀ y ∈ l1, p y = false) :
    rangeFind p (l1 ++ x :: l2) k = some (k + l1.length, x) := by
  induction l1 generalizing k with
  | nil => simp [rangeFind, hx]
  | cons y ys ih =>
    have hy : p y = false := h1 y (by simp)
    have := ih (k + 1) (fun z hz => h1 z (by simp [hz]))
    simp [rangeFind, hy, this]
    omega

theorem rangeFind_eq_some {α : Type} (p : α → Bool) (xs : List α) (k i : Nat) (x : α)
    (h : rangeFind p xs k = some (i, x)) :
    ∃ l1 l2, xs = l1 ++ x :: l2 ∧ i = k + l1.length ∧ p x = true ∧ ∀ y ∈ l1, p y = false := by
  induction xs generalizing k with
  | nil => simp [rangeFind] at h
  | cons y ys ih =>
    by_cases hy : p y = true
    · simp [rangeFind, hy] at h
      obtain ⟨rfl, rfl⟩ := h
      exact ⟨[], ys, by simp, by simp, hy, by simp⟩
    · simp [rangeFind, hy] at h
      obtain ⟨l1, l2, rfl, rfl, hx, h1⟩ := ih (k + 1) h
      refine ⟨y :: l1, l2, by simp, by simp; omega, hx, ?_⟩
      intro z hz
      rcases List.mem_cons.1 hz with rfl | hz
      · simpa using hy
      · exact h1 z hz

theorem rangeFind_exists {α : Type} (p : α → Bool) (xs : List α) (k : Nat)
    (h : ∃ x ∈ xs, p x = true) :
    ∃ l1 x l2, xs = l1 ++ x :: l2 ∧ p x = true ∧ (∀ y ∈ l1, p y = false) ∧
      rangeFind p xs k = some (k + l1.length, x) := by
  cases hr : rangeFind p xs k with
  | none =>
    obtain ⟨x, hx, hp⟩ := h
    have := (rangeFind_eq_none p xs k).1 hr x hx
    simp [hp] at this
  | some ix =>
    obtain ⟨i, x⟩ := ix
    obtain ⟨l1, l2, rfl, rfl, hx, h1⟩ := rangeFind_eq_some p xs k i x hr
    exact ⟨l1, x, l2, rfl, hx, h1, rfl⟩

theorem set_split {α : Type} (l1 : List α) (x y : α) (l2 : List α) :
    (l1 ++ x :: l2).set (0 + l1.length) y = l1 ++ y :: l2 := by
  simp

theorem take_drop_split {α : Type} (l1 : List α) (x : α) (l2 : List α) :
    (l1 ++ x :: l2).take (0 + l1.length) ++ (l1 ++ x :: l2).drop (0 + l1.length + 1) = l1 ++ l2 := by
  simp

/-! ## Strings: decimal formatting, byte length, hex encoding -/

theorem digitChar_value (k : Nat) (hk : k < 10) : (Nat.digitChar k).toNat - 48 = k := by
  interval_cases k <;> decide

theorem digitsValue_toDigitsCore (fuel n : Nat) (ds : List Char) (h : n < fuel) :
    digitsValue 0 (Nat.toDigitsCore 10 fuel n ds) = digitsValue n ds := by
  induction fuel generalizing n ds with
  | zero => omega
  | succ fuel ih =>
    unfold Nat.toDigitsCore
    by_cases h0 : n / 10 = 0
    · have hn : n % 10 = n := Nat.mod_eq_of_lt (by omega)
      have hd := digitChar_value (n % 10) (Nat.mod_lt _ (by decide))
      rw [hn] at hd
      simp [h0, digitsValue, hn, hd]
    · have hlt : n / 10 < fuel := by omega
      simp only [h0, if_false]
      rw [ih (n / 10) _ hlt]
      simp only [digitsValue, List.foldl_cons,
        digitChar_value (n % 10) (Nat.mod_lt _ (by decide))]
      congr 1
      omega

theorem toString_nat_injective (m n : Nat) (h : toString m = toString n) : m = n := by
  have hm : digitsValue 0 (toString m).data = m := by
    show digitsValue 0 (Nat.toDigitsCore 10 (m + 1) m []) = m
    rw [digitsValue_toDigitsCore _ _ _ (by omega)]; rfl
  have hn : digitsValue 0 (toString n).data = n := by
    show digitsValue 0 (Nat.toDigitsCore 10 (n + 1) n []) = n
    rw [digitsValue_toDigitsCore _ _ _ (by omega)]; rfl
  rw [← hm, ← hn, h]

theorem sprintfD_injective (tag : String) (m n : Nat) (h : sprintfD tag m = sprintfD tag n) :
    m = n := by
  apply toString_nat_injective
  have h2 : (tag ++ toString m).data = (tag ++ toString n).data := by
    unfold sprintfD at h; rw [h]
  simp only [String.data_append] at h2
  exact String.ext (List.append_cancel_left h2)

theorem len_pos (s : String) (h : s ≠ "") : 0 < len s := by
  obtain ⟨cs⟩ := s
  cases cs with
  | nil => exact absurd rfl h
  | cons c cs =>
    show 0 < String.utf8ByteSize ⟨c :: cs⟩
    simp only [String.utf8ByteSize, String.utf8ByteSize.go]
    have := Char.utf8Size_pos c
    omega

theorem EncodeToString_length (src : List Nat) : (EncodeToString src).length = 2 * src.length := by
  unfold EncodeToString
  simp only [String.length]
  induction src with
  | nil => rfl
  | cons v vs ih =>
    rw [List.flatMap_cons, List.length_append, ih]
    simp only [List.length_cons, List.length_nil]
    omega

theorem GenerateSecureToken_length (n : Nat) (f : Nat → Nat) :
    (GenerateSecureToken n (some f)).length = 2 * n := by
  simp [GenerateSecureToken, EncodeToString_length]

/-! ## One step of the client directory -/

theorem register_cases (r : Request) (s : Server) :
    (r.client = none ∧ register r s = (⟨400, Payload.empty⟩, s)) ∨
    (∃ b, r.client = some b ∧ (∃ c ∈ s.clients, c.Username = b.Username) ∧
      register r s = (⟨409, Payload.empty⟩, s)) ∨
    (∃ b, r.client = some b ∧ (∀ c ∈ s.clients, c.Username ≠ b.Username) ∧
      register r s = (⟨201, Payload.empty⟩,
        { s with clients := s.clients ++
          [{ b with ID := sprintfD "client" (s.clients.length + 1) }] })) := by
  cases hb : r.client with
  | none => left; simp [register, hb]
  | some b =>
    right
    cases hf : rangeFind (fun c => decide (c.Username = b.Username)) s.clients 0 with
    | none =>
      right
      refine ⟨b, rfl, ?_, by simp [register, hb, hf]⟩
      intro c hc
      simpa using (rangeFind_eq_none _ _ _).1 hf c hc
    | some ix =>
      left
      obtain ⟨i, x⟩ := ix
      obtain ⟨l1, l2, hl, -, hx, -⟩ := rangeFind_eq_some _ _ _ _ _ hf
      refine ⟨b, rfl, ⟨x, by simp [hl], by simpa using hx⟩, by simp [register, hb, hf]⟩

theorem login_cases (r : Request) (s : Server) :
    (r.client = none ∧ login r s = (⟨400, Payload.empty⟩, s)) ∨
    (∃ b, r.client = some b ∧
      (∀ c ∈ s.clients, ¬(c.Username = b.Username ∧ c.Password = b.Password)) ∧
      login r s = (⟨401, Payload.empty⟩, s)) ∨
    (∃ b l1 c l2, r.client = some b ∧ s.clients = l1 ++ c :: l2 ∧
      c.Username = b.Username ∧ c.Password = b.Password ∧
      (∀ y ∈ l1, ¬(y.Username = b.Username ∧ y.Password = b.Password)) ∧
      login r s = (⟨200, Payload.token (GenerateSecureToken (len b.Username) r.rand)⟩,
        { s with clients :=
          l1 ++ { c with Token := GenerateSecureToken (len b.Username) r.rand } :: l2 })) := by
  cases hb : r.client with
  | none => left; simp [login, hb]
  | some b =>
    right
    cases hf : rangeFind
        (fun c => decide (c.Username = b.Username) && decide (c.Password = b.Password))
        s.clients 0 with
    | none =>
      left
      refine ⟨b, rfl, ?_, by simp [login, hb, hf]⟩
      intro c hc
      simpa using (rangeFind_eq_none _ _ _).1 hf c hc
    | some ix =>
      right
      obtain ⟨i, x⟩ := ix
      obtain ⟨l1, l2, hl, rfl, hx, h1⟩ := rangeFind_eq_some _ _ _ _ _ hf
      have hx2 : x.Username = b.Username ∧ x.Password = b.Password := by simpa using hx
      refine ⟨b, l1, x, l2, rfl, hl, hx2.1, hx2.2, ?_, ?_⟩
      · intro y hy
        simpa using h1 y hy
      · rw [hl] at hf
        simp only [login, hb, hl, hf, set_split, hx2.1]

/-! ## C1 : the authentication gate -/

/-- C1: `authenticate` hands the request (with the resolved client attached) to the wrapped
handler exactly when the Authorization value is non-empty and equals the token of some
client record; in every other case the answer is 401 whatever the wrapped handler is, and
the client directory and the video store are untouched.  An empty Authorization value is
rejected also when a record holds the empty token. -/
theorem authenticate_gate (r : Request) (s : Server) :
    ((r.authorization ≠ "" ∧ ∃ c ∈ s.clients, c.Token = r.authorization) →
      ∃ c ∈ s.clients, c.Token = r.authorization ∧
        ∀ next : Handler, authenticate next r s = next { r with ctx := some c } s) ∧
    (¬(r.authorization ≠ "" ∧ ∃ c ∈ s.clients, c.Token = r.authorization) →
      ∀ next : Handler, authenticate next r s = (⟨401, Payload.empty⟩, s)) ∧
    (r.authorization = "" → (∃ c ∈ s.clients, c.Token = "") →
      ∀ next : Handler, authenticate next r s = (⟨401, Payload.empty⟩, s)) := by
  refine ⟨?_, ?_, ?_⟩
  · rintro ⟨hne, hex⟩
    obtain ⟨l1, x, l2, hl, hx, -, hf⟩ :=
      rangeFind_exists (fun c => decide (c.Token = r.authorization)) s.clients 0
        (by simpa using hex)
    refine ⟨x, by simp [hl], by simpa using hx, ?_⟩
    intro next
    simp [authenticate, hne, hf]
  · intro hn next
    by_cases he : r.authorization = ""
    · simp [authenticate, he]
    · have hnone : rangeFind (fun c => decide (c.Token = r.authorization)) s.clients 0 = none := by
        rw [rangeFind_eq_none]
        intro c hc
        have : ¬ c.Token = r.authorization := fun h => hn ⟨he, c, hc, h⟩
        simpa using this
      simp [authenticate, he, hnone]
  · intro he _ next
    simp [authenticate, he]

/-- C1 witness: a header-less request against a directory whose only record has never logged in. -/
theorem authenticate_gate_witness :
    (mkRequest "" "" none none none).authorization = "" ∧
    (∃ c ∈ (Server.mk [] [⟨"client1", "a", "x", ""⟩]).clients, c.Token = "") ∧
    authenticate createVideo (mkRequest "" "" none none none) ⟨[], [⟨"client1", "a", "x", ""⟩]⟩
      = (⟨401, Payload.empty⟩, ⟨[], [⟨"client1", "a", "x", ""⟩]⟩) :=
  ⟨rfl, ⟨⟨"client1", "a", "x", ""⟩, by simp, rfl⟩,
    (authenticate_gate (mkRequest "" "" none none none) ⟨[], [⟨"client1", "a", "x", ""⟩]⟩).2.2
      rfl ⟨⟨"client1", "a", "x", ""⟩, by simp, rfl⟩ createVideo⟩

/-! ## C2 : usernames stay unique -/

theorem register_preserves_usernames (r : Request) (s : Server)
    (h : UniqueUsernames s.clients) : UniqueUsernames (register r s).2.clients := by
  rcases register_cases r s with ⟨-, he⟩ | ⟨b, -, -, he⟩ | ⟨b, -, hfree, he⟩
  · rw [he]; exact h
  · rw [he]; exact h
  · rw [he]
    unfold UniqueUsernames at h ⊢
    rw [List.pairwise_append]
    refine ⟨h, List.pairwise_singleton _ _, ?_⟩
    intro a ha c hc
    rw [List.mem_singleton] at hc
    subst hc
    exact hfree a ha

theorem login_preserves_usernames (r : Request) (s : Server)
    (h : UniqueUsernames s.clients) : UniqueUsernames (login r s).2.clients := by
  rcases login_cases r s with ⟨-, he⟩ | ⟨b, -, -, he⟩ | ⟨b, l1, c, l2, -, hl, -, -, -, he⟩
  · rw [he]; exact h
  · rw [he]; exact h
  · rw [he]
    unfold UniqueUsernames at h ⊢
    rw [hl] at h
    simp only [List.pairwise_append, List.pairwise_cons, List.mem_cons] at h ⊢
    obtain ⟨h1, h2, h3⟩ := h
    refine ⟨h1, h2, ?_⟩
    intro a ha x hx
    rcases hx with rfl | hx
    · exact h3 a ha c (Or.inl rfl)
    · exact h3 a ha x (Or.inr hx)

theorem apply_preserves_usernames (q : DirReq) (s : Server)
    (h : UniqueUsernames s.clients) : UniqueUsernames (q.apply s).clients := by
  cases q with
  | register r => exact register_preserves_usernames r s h
  | login r => exact login_preserves_usernames r s h

theorem runDir_preserves_usernames (reqs : List DirReq) (s : Server)
    (h : UniqueUsernames s.clients) : UniqueUsernames (runDir reqs s).clients := by
  induction reqs generalizing s with
  | nil => exact h
  | cons q qs ih => exact ih _ (apply_preserves_usernames q s h)

/-- C2: in every directory reached from the empty one by register and login requests no two
records share a username, and a register request whose username is already held by a record
answers 409 and changes nothing. -/
theorem usernames_unique (reqs : List DirReq) (vs : List Video) :
    UniqueUsernames (runDir reqs ⟨vs, []⟩).clients ∧
    ∀ (s : Server) (r : Request) (body : Client), r.client = some body →
      (∃ c ∈ s.clients, c.Username = body.Username) →
      register r s = (⟨409, Payload.empty⟩, s) := by
  refine ⟨runDir_preserves_usernames reqs _ List.Pairwise.nil, ?_⟩
  intro s r body hb hex
  rcases register_cases r s with ⟨hn, -⟩ | ⟨b, -, -, he⟩ | ⟨b, hb2, hfree, -⟩
  · rw [hb] at hn; cases hn
  · exact he
  · rw [hb] at hb2
    cases hb2
    obtain ⟨c, hc, hcu⟩ := hex
    exact absurd hcu (hfree c hc)

/-- C2 witness: registering the username "a" a second time. -/
theorem usernames_unique_witness :
    (mkRequest "" "" none (some ⟨"", "a", "y", ""⟩) none).client = some ⟨"", "a", "y", ""⟩ ∧
    (∃ c ∈ (Server.mk [] [⟨"client1", "a", "x", ""⟩]).clients, c.Username = "a") ∧
    register (mkRequest "" "" none (some ⟨"", "a", "y", ""⟩) none)
      ⟨[], [⟨"client1", "a", "x", ""⟩]⟩
      = (⟨409, Payload.empty⟩, ⟨[], [⟨"client1", "a", "x", ""⟩]⟩) :=
  ⟨rfl, ⟨⟨"client1", "a", "x", ""⟩, by simp, rfl⟩,
    (usernames_unique [] []).2 ⟨[], [⟨"client1", "a", "x", ""⟩]⟩
      (mkRequest "" "" none (some ⟨"", "a", "y", ""⟩) none) ⟨"", "a", "y", ""⟩ rfl
      ⟨⟨"client1", "a", "x", ""⟩, by simp, rfl⟩⟩

/-! ## C3 : what register stores -/

/-- C3 (evaluation at the failing input): a register body that carries a token is stored with
that token, so the new record's token is not empty, and the Authorization value "t" passes
`authenticate` although no login ever happened. -/
theorem register_stores_body_token :
    register (mkRequest "" "" none (some ⟨"", "u", "p", "t"⟩) none) ⟨[], []⟩
      = (⟨201, Payload.empty⟩, ⟨[], [⟨"client1", "u", "p", "t"⟩]⟩) ∧
    authenticate getVideos (mkRequest "t" "" none none none)
        (register (mkRequest "" "" none (some ⟨"", "u", "p", "t"⟩) none) ⟨[], []⟩).2
      = (⟨200, Payload.videos []⟩, ⟨[], [⟨"client1", "u", "p", "t"⟩]⟩) := by
  decide

/-! ## C4 : login -/

/-- C4: for a login request with credentials `(u, p)`, the answer is 401 with the directory
unchanged exactly when no record has username `u` and password `p`; otherwise the answer
carries the token generated for this request, the first matching record gets exactly that
token, its other fields stay, and every other record stays where it is. -/
theorem login_spec (r : Request) (s : Server) (body : Client) (hb : r.client = some body) :
    (((login r s).1.status = 401 ∧ (login r s).2.clients = s.clients) ↔
      ¬ ∃ c ∈ s.clients, c.Username = body.Username ∧ c.Password = body.Password) ∧
    ((¬ ∃ c ∈ s.clients, c.Username = body.Username ∧ c.Password = body.Password) →
      login r s = (⟨401, Payload.empty⟩, s)) ∧
    ((∃ c ∈ s.clients, c.Username = body.Username ∧ c.Password = body.Password) →
      ∃ l1 c l2, s.clients = l1 ++ c :: l2 ∧
        c.Username = body.Username ∧ c.Password = body.Password ∧
        (∀ y ∈ l1, ¬(y.Username = body.Username ∧ y.Password = body.Password)) ∧
        login r s = (⟨200, Payload.token (GenerateSecureToken (len body.Username) r.rand)⟩,
          { s with clients :=
            l1 ++ ⟨c.ID, c.Username, c.Password,
              GenerateSecureToken (len body.Username) r.rand⟩ :: l2 })) := by
  rcases login_cases r s with ⟨hn, -⟩ | ⟨b, hb2, hno, he⟩ |
      ⟨b, l1, c, l2, hb2, hl, hu, hp, h1, he⟩
  · rw [hb] at hn; cases hn
  · rw [hb] at hb2; cases hb2
    have hno2 : ¬ ∃ c ∈ s.clients, c.Username = body.Username ∧ c.Password = body.Password := by
      rintro ⟨c, hc, h⟩; exact hno c hc h
    refine ⟨⟨fun _ => hno2, fun _ => by rw [he]; exact ⟨rfl, rfl⟩⟩, fun _ => he, ?_⟩
    intro hex; exact absurd hex hno2
  · rw [hb] at hb2; cases hb2
    have hyes : ∃ c ∈ s.clients, c.Username = body.Username ∧ c.Password = body.Password :=
      ⟨c, by simp [hl], hu, hp⟩
    refine ⟨⟨?_, fun h => absurd hyes h⟩, fun h => absurd hyes h, ?_⟩
    · rw [he]
      rintro ⟨h401, -⟩
      simp at h401
    · intro _
      exact ⟨l1, c, l2, hl, hu, hp, h1, he⟩

/-- C4 witness: the second of two records logs in with a one-byte username. -/
theorem login_spec_witness :
    (mkRequest "" "" none (some ⟨"", "b", "y", ""⟩) (some fun _ => 171)).client
      = some ⟨"", "b", "y", ""⟩ ∧
    ((login (mkRequest "" "" none (some ⟨"", "b", "y", ""⟩) (some fun _ => 171))
        ⟨[], [⟨"client1", "a", "x", ""⟩, ⟨"client2", "b", "y", ""⟩]⟩).1.status = 401 ∧
      (login (mkRequest "" "" none (some ⟨"", "b", "y", ""⟩) (some fun _ => 171))
        ⟨[], [⟨"client1", "a", "x", ""⟩, ⟨"client2", "b", "y", ""⟩]⟩).2.clients
        = [⟨"client1", "a", "x", ""⟩, ⟨"client2", "b", "y", ""⟩] ↔
      ¬ ∃ c ∈ [(⟨"client1", "a", "x", ""⟩ : Client), ⟨"client2", "b", "y", ""⟩],
        c.Username = "b" ∧ c.Password = "y") :=
  ⟨rfl,
    (login_spec (mkRequest "" "" none (some ⟨"", "b", "y", ""⟩) (some fun _ => 171))
      ⟨[], [⟨"client1", "a", "x", ""⟩, ⟨"client2", "b", "y", ""⟩]⟩ ⟨"", "b", "y", ""⟩ rfl).1⟩

/-! ## C5 : tokens held by the directory -/

theorem register_preserves_tokens (r : Request) (s : Server)
    (hf : (DirReq.register r).fresh s = true)
    (h : UniqueTokens s.clients) : UniqueTokens (register r s).2.clients := by
  rcases register_cases r s with ⟨-, he⟩ | ⟨b, -, -, he⟩ | ⟨b, hb, -, he⟩
  · rw [he]; exact h
  · rw [he]; exact h
  · rw [he]
    have hbt : b.Token = "" := by simpa [DirReq.fresh, hb] using hf
    unfold UniqueTokens at h ⊢
    rw [List.pairwise_append]
    refine ⟨h, List.pairwise_singleton _ _, ?_⟩
    intro a _ c hc hne
    rw [List.mem_singleton] at hc
    subst hc
    simpa [hbt] using hne

theorem login_preserves_tokens (r : Request) (s : Server)
    (hf : (DirReq.login r).fresh s = true) (hu : UniqueUsernames s.clients)
    (h : UniqueTokens s.clients) : UniqueTokens (login r s).2.clients := by
  rcases login_cases r s with ⟨-, he⟩ | ⟨b, -, -, he⟩ | ⟨b, l1, c, l2, hb, hl, hcu, -, -, he⟩
  · rw [he]; exact h
  · rw [he]; exact h
  · rw [he]
    have hfr : GenerateSecureToken (len b.Username) r.rand = "" ∨
        ∀ x ∈ s.clients, x.Username = b.Username ∨
          x.Token ≠ GenerateSecureToken (len b.Username) r.rand := by
      simpa [DirReq.fresh, hb] using hf
    generalize GenerateSecureToken (len b.Username) r.rand = t at hfr ⊢
    unfold UniqueTokens at h ⊢
    unfold UniqueUsernames at hu
    rw [hl] at h hu hfr
    simp only [List.pairwise_append, List.pairwise_cons, List.mem_cons, List.mem_append] at h hu hfr ⊢
    obtain ⟨h1, ⟨h2, h3⟩, h4⟩ := h
    obtain ⟨-, ⟨hu2, -⟩, hu4⟩ := hu
    refine ⟨h1, ⟨?_, h3⟩, ?_⟩
    · intro y hy hne heq
      rcases hfr with h0 | hfr
      · exact hne h0
      · rcases hfr y (Or.inr (Or.inr hy)) with hyu | hyt
        · exact hu2 y hy (hcu.trans hyu.symm)
        · exact hyt heq.symm
    · intro a ha x hx hne
      rcases hx with rfl | hx
      · intro heq
        rcases hfr with h0 | hfr
        · exact hne (heq.trans h0)
        · rcases hfr a (Or.inl ha) with hau | hat
          · exact hu4 a ha c (Or.inl rfl) (hau.trans hcu.symm)
          · exact hat heq
      · exact h4 a ha x (Or.inr hx) hne

theorem runDir_preserves_tokens (reqs : List DirReq) (s : Server)
    (hf : freshRun reqs s = true) (hu : UniqueUsernames s.clients)
    (h : UniqueTokens s.clients) : UniqueTokens (runDir reqs s).clients := by
  induction reqs generalizing s with
  | nil => exact h
  | cons q qs ih =>
    simp only [freshRun, Bool.and_eq_true] at hf
    refine ih _ hf.2 (apply_preserves_usernames q s hu) ?_
    cases q with
    | register r => exact register_preserves_tokens r s hf.1 h
    | login r => exact login_preserves_tokens r s hf.1 hu h

theorem uniqueTokens_filter (cs : List Client) (h : UniqueTokens cs) (t : String)
    (ht : t ≠ "") : (cs.filter fun c => decide (c.Token = t)).length ≤ 1 := by
  have hp : (cs.filter fun c => decide (c.Token = t)).Pairwise
      (fun a b => a.Token ≠ "" → a.Token ≠ b.Token) := List.Pairwise.filter _ h
  have hall : ∀ x ∈ cs.filter (fun c => decide (c.Token = t)), x.Token = t := by
    intro x hx
    simpa using (List.mem_filter.1 hx).2
  generalize cs.filter (fun c => decide (c.Token = t)) = l at hp hall
  match l, hp, hall with
  | [], _, _ => simp
  | [_], _, _ => simp
  | a :: b :: _, hp, hall =>
    exfalso
    have ha : a.Token = t := hall a (by simp)
    have hb : b.Token = t := hall b (by simp)
    have := (List.pairwise_cons.1 hp).1 b (by simp) (by rw [ha]; exact ht)
    exact this (ha.trans hb.symm)

/-- C5 (counterexample): after two registrations and two logins whose random reads both
return the byte 0, the records of "a" and of "b" both hold the token "00". -/
theorem tokens_collide :
    ¬ UniqueTokens (runDir
      [DirReq.register (mkRequest "" "" none (some ⟨"", "a", "x", ""⟩) none),
       DirReq.register (mkRequest "" "" none (some ⟨"", "b", "y", ""⟩) none),
       DirReq.login (mkRequest "" "" none (some ⟨"", "a", "x", ""⟩) (some fun _ => 0)),
       DirReq.login (mkRequest "" "" none (some ⟨"", "b", "y", ""⟩) (some fun _ => 0))]
      ⟨[], []⟩).clients := by
  decide

/-- C5 (amended): in every directory reached from the empty one by register requests whose
body carries no token and login requests whose generated token is empty or held by no record
with another username, no two records hold the same non-empty token, and every non-empty
Authorization value equals the token of at most one record. -/
theorem tokens_unique_when_fresh (reqs : List DirReq) (vs : List Video)
    (hf : freshRun reqs ⟨vs, []⟩ = true) :
    UniqueTokens (runDir reqs ⟨vs, []⟩).clients ∧
    ∀ t : String, t ≠ "" →
      ((runDir reqs ⟨vs, []⟩).clients.filter fun c => decide (c.Token = t)).length ≤ 1 := by
  have h := runDir_preserves_tokens reqs ⟨vs, []⟩ hf List.Pairwise.nil List.Pairwise.nil
  exact ⟨h, fun t ht => uniqueTokens_filter _ h t ht⟩

/-- C5 witness: two registrations and two logins with different random bytes. -/
theorem tokens_unique_when_fresh_witness :
    freshRun
      [DirReq.register (mkRequest "" "" none (some ⟨"", "a", "x", ""⟩) none),
       DirReq.register (mkRequest "" "" none (some ⟨"", "b", "y", ""⟩) none),
       DirReq.login (mkRequest "" "" none (some ⟨"", "a", "x", ""⟩) (some fun _ => 0)),
       DirReq.login (mkRequest "" "" none (some ⟨"", "b", "y", ""⟩) (some fun _ => 1))]
      ⟨[], []⟩ = true ∧
    UniqueTokens (runDir
      [DirReq.register (mkRequest "" "" none (some ⟨"", "a", "x", ""⟩) none),
       DirReq.register (mkRequest "" "" none (some ⟨"", "b", "y", ""⟩) none),
       DirReq.login (mkRequest "" "" none (some ⟨"", "a", "x", ""⟩) (some fun _ => 0)),
       DirReq.login (mkRequest "" "" none (some ⟨"", "b", "y", ""⟩) (some fun _ => 1))]
      ⟨[], []⟩).clients :=
  ⟨by decide, (tokens_unique_when_fresh _ [] (by decide)).1⟩

/-! ## Credentials are never rewritten -/

theorem apply_keeps_credentials (q : DirReq) (s : Server) (u p : String)
    (h : ∃ c ∈ s.clients, c.Username = u ∧ c.Password = p) :
    ∃ c ∈ (q.apply s).clients, c.Username = u ∧ c.Password = p := by
  obtain ⟨c, hc, hcu, hcp⟩ := h
  cases q with
  | register r =>
    show ∃ c ∈ (register r s).2.clients, _
    rcases register_cases r s with ⟨-, he⟩ | ⟨b, -, -, he⟩ | ⟨b, -, -, he⟩
    · rw [he]; exact ⟨c, hc, hcu, hcp⟩
    · rw [he]; exact ⟨c, hc, hcu, hcp⟩
    · rw [he]; exact ⟨c, by simp [hc], hcu, hcp⟩
  | login r =>
    show ∃ c ∈ (login r s).2.clients, _
    rcases login_cases r s with ⟨-, he⟩ | ⟨b, -, -, he⟩ | ⟨b, l1, x, l2, -, hl, -, -, -, he⟩
    · rw [he]; exact ⟨c, hc, hcu, hcp⟩
    · rw [he]; exact ⟨c, hc, hcu, hcp⟩
    · rw [he]
      rw [hl] at hc
      simp only [List.mem_append, List.mem_cons] at hc
      rcases hc with hc | rfl | hc
      · exact ⟨c, by simp [hc], hcu, hcp⟩
      · exact ⟨{ c with Token := GenerateSecureToken (len b.Username) r.rand }, by simp,
          hcu, hcp⟩
      · exact ⟨c, by simp [hc], hcu, hcp⟩

theorem runDir_keeps_credentials (qs : List DirReq) (s : Server) (u p : String)
    (h : ∃ c ∈ s.clients, c.Username = u ∧ c.Password = p) :
    ∃ c ∈ (runDir qs s).clients, c.Username = u ∧ c.Password = p := by
  induction qs generalizing s with
  | nil => exact h
  | cons q qs ih => exact ih _ (apply_keeps_credentials q s u p h)

/-! ## C6 : the token returned by login -/

/-- C6 (counterexample): `register` accepts the empty username, and the login of that client
with the right credentials and a successful random read answers 200 with the empty token. -/
theorem login_empty_username_empty_token :
    (register (mkRequest "" "" none (some ⟨"", "", "p", ""⟩) none) ⟨[], []⟩).1.status = 201 ∧
    (login (mkRequest "" "" none (some ⟨"", "", "p", ""⟩) (some fun _ => 77))
      (register (mkRequest "" "" none (some ⟨"", "", "p", ""⟩) none) ⟨[], []⟩).2).1
      = ⟨200, Payload.token ""⟩ := by
  decide

/-- C6 (amended): for every client with a non-empty username that `register` accepted,
whatever register and login requests were served since, and for every successful read of the
random source, login with that client's username and password answers 200 with a non-empty
token: the hex encoding of the `len(username)` bytes read, `2 * len(username)` characters
long.  The same holds in every directory that has a record with that username and password. -/
theorem login_token_nonempty (r2 : Request) (b2 : Client) (f : Nat → Nat)
    (h2 : r2.client = some b2) (hne : b2.Username ≠ "") (hr : r2.rand = some f) :
    (∀ (s : Server) (r1 : Request) (b1 : Client) (qs : List DirReq),
      r1.client = some b1 → (register r1 s).1.status = 201 →
      b1.Username = b2.Username → b1.Password = b2.Password →
      (login r2 (runDir qs (register r1 s).2)).1 = ⟨200, Payload.token
        (EncodeToString ((List.range (len b2.Username)).map fun i => f i % 256))⟩) ∧
    (∀ s : Server,
      (∃ c ∈ s.clients, c.Username = b2.Username ∧ c.Password = b2.Password) →
      (login r2 s).1 = ⟨200, Payload.token
        (EncodeToString ((List.range (len b2.Username)).map fun i => f i % 256))⟩) ∧
    EncodeToString ((List.range (len b2.Username)).map fun i => f i % 256) ≠ "" ∧
    (EncodeToString ((List.range (len b2.Username)).map fun i => f i % 256)).length
      = 2 * len b2.Username := by
  have hgen : ∀ s : Server,
      (∃ c ∈ s.clients, c.Username = b2.Username ∧ c.Password = b2.Password) →
      (login r2 s).1 = ⟨200, Payload.token
        (EncodeToString ((List.range (len b2.Username)).map fun i => f i % 256))⟩ := by
    intro s hmem
    rcases login_cases r2 s with ⟨hn, -⟩ | ⟨b, hb, hno, -⟩ |
        ⟨b, l1, c, l2, hb, -, -, -, -, he⟩
    · rw [h2] at hn; cases hn
    · rw [h2] at hb; cases hb
      obtain ⟨c, hc, hcm⟩ := hmem
      exact absurd hcm (hno c hc)
    · rw [h2] at hb; cases hb
      rw [he, hr]
      rfl
  have hlen : (EncodeToString ((List.range (len b2.Username)).map fun i => f i % 256)).length
      = 2 * len b2.Username := by
    rw [EncodeToString_length, List.length_map, List.length_range]
  refine ⟨?_, hgen, ?_, hlen⟩
  · intro s r1 b1 qs h1 hacc hu hp
    apply hgen
    apply runDir_keeps_credentials
    rcases register_cases r1 s with ⟨hn, -⟩ | ⟨b, -, -, he⟩ | ⟨b, hb, -, he⟩
    · rw [h1] at hn; cases hn
    · rw [he] at hacc; simp at hacc
    · rw [h1] at hb; cases hb
      rw [he]
      exact ⟨{ b1 with ID := sprintfD "client" (s.clients.length + 1) }, by simp, hu, hp⟩
  · intro h0
    rw [h0] at hlen
    have := len_pos _ hne
    simp at hlen
    omega

/-- C6 witness: "ab" registers, "cd" registers and logs in, then "ab" logs in; the reads of
"ab" return the bytes 10 and 26. -/
theorem login_token_nonempty_witness :
    (mkRequest "" "" none (some ⟨"", "ab", "p", ""⟩) (some fun i => 16 * i + 10)).client
      = some ⟨"", "ab", "p", ""⟩ ∧
    ("ab" : String) ≠ "" ∧
    (register (mkRequest "" "" none (some ⟨"", "ab", "p", ""⟩) none) ⟨[], []⟩).1.status = 201 ∧
    (login (mkRequest "" "" none (some ⟨"", "ab", "p", ""⟩) (some fun i => 16 * i + 10))
      (runDir
        [DirReq.register (mkRequest "" "" none (some ⟨"", "cd", "q", ""⟩) none),
         DirReq.login (mkRequest "" "" none (some ⟨"", "cd", "q", ""⟩) (some fun _ => 255))]
        (register (mkRequest "" "" none (some ⟨"", "ab", "p", ""⟩) none) ⟨[], []⟩).2)).1
      = ⟨200, Payload.token
          (EncodeToString ((List.range (len "ab")).map fun i => (16 * i + 10) % 256))⟩ ∧
    EncodeToString ((List.range (len "ab")).map fun i => (16 * i + 10) % 256) = "0a1a" :=
  ⟨rfl, by decide, by decide,
    (login_token_nonempty
      (mkRequest "" "" none (some ⟨"", "ab", "p", ""⟩) (some fun i => 16 * i + 10))
      ⟨"", "ab", "p", ""⟩ (fun i => 16 * i + 10) rfl (by decide) rfl).1
      ⟨[], []⟩ (mkRequest "" "" none (some ⟨"", "ab", "p", ""⟩) none) ⟨"", "ab", "p", ""⟩
      [DirReq.register (mkRequest "" "" none (some ⟨"", "cd", "q", ""⟩) none),
       DirReq.login (mkRequest "" "" none (some ⟨"", "cd", "q", ""⟩) (some fun _ => 255))]
      rfl (by decide) rfl rfl,
    by decide⟩

/-! ## C7 : video IDs after a delete -/

/-- C7 (evaluation at the failing input): create, create, delete "video1", create.  The
third create answers with the ID "video2", which the surviving record already has, and the
store ends with two records of ID "video2". -/
theorem create_after_delete_reuses_id :
    (runStore
      [StoreReq.create (mkRequest "" "" (some ⟨"", "A", "a"⟩) none none),
       StoreReq.create (mkRequest "" "" (some ⟨"", "B", "b"⟩) none none),
       StoreReq.delete (mkRequest "" "video1" none none none)]
      ⟨[], []⟩).videos = [⟨"video2", "B", "b"⟩] ∧
    createVideo (mkRequest "" "" (some ⟨"", "C", "c"⟩) none none)
      (runStore
        [StoreReq.create (mkRequest "" "" (some ⟨"", "A", "a"⟩) none none),
         StoreReq.create (mkRequest "" "" (some ⟨"", "B", "b"⟩) none none),
         StoreReq.delete (mkRequest "" "video1" none none none)]
        ⟨[], []⟩)
      = (⟨200, Payload.video ⟨"video2", "C", "c"⟩⟩,
          ⟨[⟨"video2", "B", "b"⟩, ⟨"video2", "C", "c"⟩], []⟩) := by
  decide

/-! ## C8 : creates followed by reads -/

theorem numbered_length (n : Nat) (bs : List Video) : (numbered n bs).length = bs.length := by
  induction bs generalizing n with
  | nil => rfl
  | cons b bs ih => simp [numbered, ih]

theorem numbered_getElem? (n : Nat) (bs : List Video) (k : Nat) (b : Video)
    (hk : bs[k]? = some b) :
    (numbered n bs)[k]? = some ⟨sprintfD "video" (n + k + 1), b.Title, b.URL⟩ := by
  induction bs generalizing n k with
  | nil => simp at hk
  | cons x xs ih =>
    cases k with
    | zero =>
      simp at hk
      subst hk
      simp [numbered]
    | succ k =>
      simp at hk
      have := ih (n + 1) k hk
      simp only [numbered, List.getElem?_cons_succ, this]
      congr 3
      omega

theorem rangeFind_numbered (n : Nat) (bs : List Video) (k : Nat) (b : Video)
    (hk : bs[k]? = some b) (i : Nat) :
    rangeFind (fun v => decide (v.ID = sprintfD "video" (n + k + 1))) (numbered n bs) i
      = some (i + k, ⟨sprintfD "video" (n + k + 1), b.Title, b.URL⟩) := by
  induction bs generalizing n k i with
  | nil => simp at hk
  | cons x xs ih =>
    cases k with
    | zero =>
      simp at hk
      subst hk
      simp [numbered, rangeFind]
    | succ k =>
      simp at hk
      have hne : ¬ sprintfD "video" (n + 1) = sprintfD "video" (n + (k + 1) + 1) := by
        intro h
        have := sprintfD_injective _ _ _ h
        omega
      have := ih (n + 1) k hk (i + 1)
      have e1 : n + 1 + k + 1 = n + (k + 1) + 1 := by omega
      have e2 : i + 1 + k = i + (k + 1) := by omega
      rw [e1, e2] at this
      simp only [numbered, rangeFind, hne, decide_False, Bool.false_eq_true, if_false, this]

theorem runCreates_eq (rs : List Request) (bs : List Video) (s : Server)
    (h : rs.map (fun r => r.video) = bs.map some) :
    runCreates rs s =
      ((numbered s.videos.length bs).map (fun v => ⟨200, Payload.video v⟩),
        { s with videos := s.videos ++ numbered s.videos.length bs }) := by
  induction rs generalizing bs s with
  | nil =>
    cases bs with
    | nil => simp [runCreates, numbered]
    | cons b bs => simp at h
  | cons r rs ih =>
    cases bs with
    | nil => simp at h
    | cons b bs =>
      simp only [List.map_cons, List.cons.injEq] at h
      obtain ⟨hr, hrest⟩ := h
      have hc : createVideo r s = (⟨200, Payload.video ⟨sprintfD "video" (s.videos.length + 1),
          b.Title, b.URL⟩⟩, { s with videos := s.videos ++
            [⟨sprintfD "video" (s.videos.length + 1), b.Title, b.URL⟩] }) := by
        simp [createVideo, hr]
      simp only [runCreates, hc, ih bs _ hrest, numbered, List.length_append,
        List.length_singleton, List.map_cons, List.append_assoc, List.singleton_append]

/-- C8: starting from the empty video store, after consecutive creates with the decoded bodies
`bs`, `getVideos` answers the whole store, which has one record per create, in creation order;
the record at position `k` (counting from 0) has the ID "video" followed by `k + 1` and the
title and url of the body of that create, whatever ID the body carried; it is the record that
create answered with, and `getVideo` with that ID answers the same record. -/
theorem creates_then_reads (rs : List Request) (bs : List Video) (cs : List Client)
    (q : Request) (h : rs.map (fun r => r.video) = bs.map some) :
    getVideos q (runCreates rs ⟨[], cs⟩).2
      = (⟨200, Payload.videos (runCreates rs ⟨[], cs⟩).2.videos⟩, (runCreates rs ⟨[], cs⟩).2) ∧
    (runCreates rs ⟨[], cs⟩).2.videos.length = rs.length ∧
    (runCreates rs ⟨[], cs⟩).1.length = rs.length ∧
    ∀ (k : Nat) (b : Video), bs[k]? = some b →
      (runCreates rs ⟨[], cs⟩).2.videos[k]?
        = some ⟨sprintfD "video" (k + 1), b.Title, b.URL⟩ ∧
      (runCreates rs ⟨[], cs⟩).1[k]?
        = some ⟨200, Payload.video ⟨sprintfD "video" (k + 1), b.Title, b.URL⟩⟩ ∧
      getVideo { q with id := sprintfD "video" (k + 1) } (runCreates rs ⟨[], cs⟩).2
        = (⟨200, Payload.video ⟨sprintfD "video" (k + 1), b.Title, b.URL⟩⟩,
            (runCreates rs ⟨[], cs⟩).2) := by
  have hlen : bs.length = rs.length := by
    have := congrArg List.length h
    simpa using this.symm
  rw [runCreates_eq rs bs _ h]
  simp only [List.length_nil, List.nil_append, List.length_map, numbered_length]
  refine ⟨rfl, hlen, hlen, ?_⟩
  intro k b hk
  have hg := numbered_getElem? 0 bs k b hk
  have hf := rangeFind_numbered 0 bs k b hk 0
  simp only [Nat.zero_add] at hg hf
  refine ⟨hg, ?_, ?_⟩
  · rw [List.getElem?_map, hg]; rfl
  · simp only [getVideo, hf]

/-- C8 witness: two creates, the first with a body that carries an ID of its own. -/
theorem creates_then_reads_witness :
    [mkRequest "" "" (some ⟨"zzz", "A", "a"⟩) none none,
      mkRequest "" "" (some ⟨"", "B", "b"⟩) none none].map (fun r => r.video)
      = [(⟨"zzz", "A", "a"⟩ : Video), ⟨"", "B", "b"⟩].map some ∧
    (runCreates [mkRequest "" "" (some ⟨"zzz", "A", "a"⟩) none none,
      mkRequest "" "" (some ⟨"", "B", "b"⟩) none none] ⟨[], []⟩).2.videos.length = 2 :=
  ⟨rfl, (creates_then_reads
    [mkRequest "" "" (some ⟨"zzz", "A", "a"⟩) none none,
      mkRequest "" "" (some ⟨"", "B", "b"⟩) none none]
    [⟨"zzz", "A", "a"⟩, ⟨"", "B", "b"⟩] [] (mkRequest "" "" none none none) rfl).2.1⟩

/-! ## C9 : update and delete touch one record -/

/-- C9: `updateVideo` (with a decoded body) and `deleteVideo` act on the first record whose ID
equals the `id` parameter: update replaces its title and url, keeping its ID and its position,
delete removes it, and the records before and after it stay as they are, in order; when no
record has that ID both answer 404 and the server state is the same as before. -/
theorem update_delete_frame (r : Request) (s : Server) :
    (∀ body : Video, r.video = some body →
      ((∃ v ∈ s.videos, v.ID = r.id) →
        ∃ l1 v l2, s.videos = l1 ++ v :: l2 ∧ v.ID = r.id ∧ (∀ y ∈ l1, y.ID ≠ r.id) ∧
          updateVideo r s = (⟨200, Payload.video ⟨v.ID, body.Title, body.URL⟩⟩,
            { s with videos := l1 ++ ⟨v.ID, body.Title, body.URL⟩ :: l2 })) ∧
      ((¬ ∃ v ∈ s.videos, v.ID = r.id) → updateVideo r s = (⟨404, Payload.empty⟩, s))) ∧
    ((∃ v ∈ s.videos, v.ID = r.id) →
      ∃ l1 v l2, s.videos = l1 ++ v :: l2 ∧ v.ID = r.id ∧ (∀ y ∈ l1, y.ID ≠ r.id) ∧
        deleteVideo r s = (⟨204, Payload.empty⟩, { s with videos := l1 ++ l2 })) ∧
    ((¬ ∃ v ∈ s.videos, v.ID = r.id) → deleteVideo r s = (⟨404, Payload.empty⟩, s)) := by
  have hfound : (∃ v ∈ s.videos, v.ID = r.id) →
      ∃ l1 v l2, s.videos = l1 ++ v :: l2 ∧ v.ID = r.id ∧ (∀ y ∈ l1, y.ID ≠ r.id) ∧
        rangeFind (fun v => decide (v.ID = r.id)) (l1 ++ v :: l2) 0 = some (0 + l1.length, v) := by
    intro hex
    obtain ⟨l1, v, l2, hl, hv, h1, hf⟩ :=
      rangeFind_exists (fun v => decide (v.ID = r.id)) s.videos 0 (by simpa using hex)
    rw [hl] at hf
    exact ⟨l1, v, l2, hl, by simpa using hv, fun y hy => by simpa using h1 y hy, hf⟩
  have hmissing : (¬ ∃ v ∈ s.videos, v.ID = r.id) →
      rangeFind (fun v => decide (v.ID = r.id)) s.videos 0 = none := by
    intro hno
    rw [rangeFind_eq_none]
    intro v hv
    have : ¬ v.ID = r.id := fun h => hno ⟨v, hv, h⟩
    simpa using this
  refine ⟨?_, ?_, ?_⟩
  · intro body hb
    refine ⟨?_, ?_⟩
    · intro hex
      obtain ⟨l1, v, l2, hl, hv, h1, hf⟩ := hfound hex
      refine ⟨l1, v, l2, hl, hv, h1, ?_⟩
      simp only [updateVideo, hb, hl, hf, set_split]
    · intro hno
      simp only [updateVideo, hb, hmissing hno]
  · intro hex
    obtain ⟨l1, v, l2, hl, hv, h1, hf⟩ := hfound hex
    refine ⟨l1, v, l2, hl, hv, h1, ?_⟩
    simp only [deleteVideo, hl, hf, take_drop_split]
  · intro hno
    simp only [deleteVideo, hmissing hno]

/-- C9 witness: deleting an ID that no record has. -/
theorem update_delete_frame_witness :
    (¬ ∃ v ∈ (Server.mk [⟨"video1", "A", "a"⟩] []).videos,
      v.ID = (mkRequest "" "video7" none none none).id) ∧
    deleteVideo (mkRequest "" "video7" none none none) ⟨[⟨"video1", "A", "a"⟩], []⟩
      = (⟨404, Payload.empty⟩, ⟨[⟨"video1", "A", "a"⟩], []⟩) :=
  ⟨by decide,
    (update_delete_frame (mkRequest "" "video7" none none none)
      ⟨[⟨"video1", "A", "a"⟩], []⟩).2.2 (by decide)⟩

/-! ## C10 : register handlers running in parallel -/

end VideoService
